import Mathlib

/-!
Verification of the gRPC handshake pipeline (`src/core/handshaker/handshaker.cc`).

The manager (`HandshakeManager`) is embedded as a state machine: the fields of the
C++ object (`handshakers_`, `index_`, `is_shutdown_`, the handshaker args, the
deadline-timer handle, the pending `on_handshake_done_` callback) become fields of
`MState`, and the externally observable calls the manager makes (invoking a
handshaker's `DoHandshake`, forwarding `Shutdown`, committing the channelz trace
node, cancelling the deadline timer, posting `on_handshake_done` to the event
engine) are recorded, in program order, in an `actions` list.  The asynchronous
environment (handshaker completions, caller `Shutdown`, the deadline-timer task)
is an adversarially chosen list of events; all manager transitions run under the
manager mutex in the source, so an event list is exactly an interleaving.
-/

namespace GrpcHandshake

/-- `absl::Status`: either `OkStatus` or an error carrying a message
(`GRPC_ERROR_CREATE(msg)`). -/
inductive AbslStatus where
  | okStatus
  | err (msg : String)
deriving DecidableEq, Repr

/-- `status.ok()`. -/
def AbslStatus.isOk : AbslStatus → Bool
  | .okStatus => true
  | .err _ => false

@[simp] lemma AbslStatus.isOk_okStatus : AbslStatus.isOk .okStatus = true := rfl

@[simp] lemma AbslStatus.isOk_err (m : String) : AbslStatus.isOk (.err m) = false := rfl

/-- The `absl::StatusOr<HandshakerArgs*>` handed to `on_handshake_done`:
either a pointer to the manager's args, or the terminal error. -/
inductive HsResult where
  | okArgs
  | failed (e : AbslStatus)
deriving DecidableEq, Repr

/-- Externally observable calls made by the manager, in program order. -/
inductive Action where
  /-- `handshakers_[idx]->DoHandshake(&args_, ...)` on the handshaker with
  identifier `id`, read from position `idx` of the list. -/
  | invoke (id : Nat) (idx : Nat)
  /-- `handshakers_[idx]->Shutdown(e)` forwarded from `HandshakeManager::Shutdown`. -/
  | shutdownHs (idx : Nat) (e : AbslStatus)
  /-- `args_.trace_node.Commit()`. -/
  | commitTrace
  /-- `args_.event_engine->Cancel(deadline_timer_handle_)`. -/
  | cancelTimer
  /-- `args_.event_engine->Run(...)` posting the task that invokes
  `on_handshake_done(result)`. -/
  | schedule (r : HsResult)
deriving DecidableEq, Repr

/-- The manager's mutex-protected state, plus ghost bookkeeping:
`inFlight` records which handshaker (if any) has been invoked and has not yet
completed, `doneScheduled` records the result posted to the event engine (the C++
moves `on_handshake_done_` out exactly then), `viaShutdownOfOk` records that the
terminal branch took the `error.ok() && is_shutdown_` path, and `actions` is the
trace of observable calls. -/
structure MState where
  /-- `handshakers_`, as the identifiers of the registered handshakers in order. -/
  handshakers : List Nat
  /-- `index_`. -/
  index : Nat
  /-- `is_shutdown_`. -/
  is_shutdown : Bool
  /-- `args_.exit_early`. -/
  exit_early : Bool
  /-- whether `args_.endpoint` is non-null. -/
  endpoint : Bool
  /-- whether `args_.trace_node.Commit()` has been called. -/
  traceCommitted : Bool
  /-- whether `Cancel(deadline_timer_handle_)` has been called. -/
  timerCancelled : Bool
  /-- whether the deadline-timer task has already run. -/
  timerFired : Bool
  /-- ghost: index of the invoked-but-not-yet-completed handshaker, if any. -/
  inFlight : Option Nat
  /-- ghost: the result posted with `on_handshake_done`, once posted. -/
  doneScheduled : Option HsResult
  /-- ghost: the terminal branch replaced an ok status by the synthetic
  "handshaker shutdown" error and released the endpoint. -/
  viaShutdownOfOk : Bool
  /-- trace of observable calls, in program order. -/
  actions : List Action
deriving DecidableEq, Repr

/-- The local mutation of `error` inside the terminal branch:
`if (error.ok() && is_shutdown_) error = GRPC_ERROR_CREATE("handshaker shutdown")`. -/
def terminalStatus (st : MState) (error : AbslStatus) : AbslStatus :=
  if error.isOk && st.is_shutdown then AbslStatus.err "handshaker shutdown" else error

/-- `absl::StatusOr<HandshakerArgs*> result(&args_); if (!error.ok()) result = error;`
applied to the (possibly rewritten) terminal status. -/
def terminalResult (st : MState) (error : AbslStatus) : HsResult :=
  if (terminalStatus st error).isOk then HsResult.okArgs
  else HsResult.failed (terminalStatus st error)

lemma terminalResult_shutdownOfOk (st : MState) (error : AbslStatus)
    (h : (error.isOk && st.is_shutdown) = true) :
    terminalResult st error = HsResult.failed (AbslStatus.err "handshaker shutdown") := by
  obtain ⟨ha, hb⟩ := Bool.and_eq_true _ _ |>.mp h
  simp [terminalResult, terminalStatus, ha, hb]

lemma terminalResult_of_err (st : MState) (error : AbslStatus)
    (h : error.isOk = false) :
    terminalResult st error = HsResult.failed error := by
  simp [terminalResult, terminalStatus, h]

/-- `HandshakeManager::CallNextHandshakerLocked(error)`, translated line by line:
terminal branch when `!error.ok() || is_shutdown_ || args_.exit_early ||
index_ == handshakers_.size()`; the terminal branch rewrites an ok-under-shutdown
status, resets the endpoint in that case, commits the trace node, cancels the
deadline timer, latches `is_shutdown_`, and posts `on_handshake_done(result)`;
the other branch reads `handshakers_[index_]`, increments `index_`, and invokes
that handshaker's `DoHandshake`. -/
def CallNextHandshakerLocked (st : MState) (error : AbslStatus) : MState :=
  if !error.isOk || st.is_shutdown || st.exit_early
      || st.index == st.handshakers.length then
    { st with
      endpoint := if error.isOk && st.is_shutdown then false else st.endpoint,
      viaShutdownOfOk := error.isOk && st.is_shutdown,
      traceCommitted := true,
      timerCancelled := true,
      is_shutdown := true,
      doneScheduled := some (terminalResult st error),
      actions := st.actions ++
        [Action.commitTrace, Action.cancelTimer,
         Action.schedule (terminalResult st error)] }
  else
    { st with
      index := st.index + 1,
      inFlight := some st.index,
      actions := st.actions ++
        [Action.invoke (st.handshakers.getD st.index 0) st.index] }

/-- `HandshakeManager::Shutdown(error)`: no-op when `is_shutdown_` already holds;
otherwise latches `is_shutdown_` and, when `index_ > 0`, forwards `Shutdown(error)`
to `handshakers_[index_ - 1]`. -/
def ShutdownLocked (st : MState) (error : AbslStatus) : MState :=
  if st.is_shutdown then st
  else
    { st with
      is_shutdown := true,
      actions := st.actions ++
        if 0 < st.index then [Action.shutdownHs (st.index - 1) error] else [] }

/-- `HandshakeManager::Add`: appends to `handshakers_` (no precondition is
checked in the source). -/
def Add (st : MState) (h : Nat) : MState :=
  { st with handshakers := st.handshakers ++ [h] }

/-- The `CHECK_EQ(index_, 0u)` assertion at the top of
`HandshakeManager::DoHandshake`: true exactly when the check passes. -/
def DoHandshakeCheck (st : MState) : Bool :=
  st.index == 0

/-- Manager state as constructed before `DoHandshake` runs; `preShutdown` models a
caller `Shutdown` that took the mutex before `DoHandshake` (it latches
`is_shutdown_` with `index_ == 0`, so nothing is forwarded). -/
def initState (hs : List Nat) (preShutdown : Bool) : MState :=
  { handshakers := hs, index := 0, is_shutdown := preShutdown, exit_early := false,
    endpoint := false, traceCommitted := false, timerCancelled := false,
    timerFired := false, inFlight := none, doneScheduled := none,
    viaShutdownOfOk := false, actions := [] }

/-- The body of `HandshakeManager::DoHandshake` under the mutex: moves the
(non-null) endpoint into `args_`, arms the deadline timer, and starts the chain
with `CallNextHandshakerLocked(OkStatus)`. -/
def DoHandshakeStart (st : MState) : MState :=
  CallNextHandshakerLocked { st with endpoint := true } AbslStatus.okStatus

/-- Environment events, each a mutex-serialized re-entry into the manager. -/
inductive HsEvent where
  /-- The in-flight handshaker invokes its continuation with status `s`, having
  left `args_.endpoint` (non-)null per `endpointAfter` and `args_.exit_early` per
  `exitEarlyAfter`. -/
  | complete (s : AbslStatus) (endpointAfter : Bool) (exitEarlyAfter : Bool)
  /-- The caller invokes `HandshakeManager::Shutdown(e)`. -/
  | callShutdown (e : AbslStatus)
  /-- The deadline-timer task runs: `Shutdown(GRPC_ERROR_CREATE("Handshake timed out"))`. -/
  | timerFire
deriving DecidableEq, Repr

/-- One mutex-serialized transition of the manager in response to an event. -/
def step (st : MState) : HsEvent → MState
  | .complete s ep ee =>
      CallNextHandshakerLocked
        { st with inFlight := none, endpoint := ep, exit_early := ee } s
  | .callShutdown e => ShutdownLocked st e
  | .timerFire =>
      ShutdownLocked { st with timerFired := true }
        (AbslStatus.err "Handshake timed out")

/-- Which events the environment may produce in a given state: a completion only
from the in-flight handshaker (each handshaker calls `done` exactly once, and on
an ok status leaves a non-null endpoint — the §4.1 result contract); the timer
task runs at most once. -/
def evValid (st : MState) : HsEvent → Bool
  | .complete s ep _ => st.inFlight.isSome && (!s.isOk || ep)
  | .callShutdown _ => true
  | .timerFire => !st.timerFired

/-- All events of the list are valid at the state they arrive in. -/
def validFrom : MState → List HsEvent → Bool
  | _, [] => true
  | st, e :: es => evValid st e && validFrom (step st e) es

/-- The manager state after `DoHandshake` and the interleaving `evs`. -/
def run (hs : List Nat) (pre : Bool) (evs : List HsEvent) : MState :=
  evs.foldl step (DoHandshakeStart (initState hs pre))

/-- The interleaving `evs` is a valid environment behaviour after `DoHandshake`. -/
def ValidRun (hs : List Nat) (pre : Bool) (evs : List HsEvent) : Bool :=
  validFrom (DoHandshakeStart (initState hs pre)) evs

/-- Is this action a `Run`-post of `on_handshake_done`? -/
def isSchedule : Action → Bool
  | .schedule _ => true
  | _ => false

/-- Is this action a `DoHandshake` invocation on a handshaker? -/
def isInvoke : Action → Bool
  | .invoke _ _ => true
  | _ => false

/-- Number of `on_handshake_done` posts in an action trace. -/
def countSchedule (l : List Action) : Nat := l.countP isSchedule

/-- Number of handshaker `DoHandshake` invocations in an action trace. -/
def countInvokes (l : List Action) : Nat := l.countP isInvoke

@[simp] lemma isSchedule_invoke (id idx : Nat) : isSchedule (.invoke id idx) = false := rfl

@[simp] lemma isSchedule_shutdownHs (idx : Nat) (e : AbslStatus) :
    isSchedule (.shutdownHs idx e) = false := rfl

@[simp] lemma isSchedule_commitTrace : isSchedule .commitTrace = false := rfl

@[simp] lemma isSchedule_cancelTimer : isSchedule .cancelTimer = false := rfl

@[simp] lemma isSchedule_schedule (r : HsResult) : isSchedule (.schedule r) = true := rfl

@[simp] lemma isInvoke_invoke (id idx : Nat) : isInvoke (.invoke id idx) = true := rfl

@[simp] lemma isInvoke_shutdownHs (idx : Nat) (e : AbslStatus) :
    isInvoke (.shutdownHs idx e) = false := rfl

@[simp] lemma isInvoke_commitTrace : isInvoke .commitTrace = false := rfl

@[simp] lemma isInvoke_cancelTimer : isInvoke .cancelTimer = false := rfl

@[simp] lemma isInvoke_schedule (r : HsResult) : isInvoke (.schedule r) = false := rfl

@[simp] lemma countSchedule_append (l₁ l₂ : List Action) :
    countSchedule (l₁ ++ l₂) = countSchedule l₁ + countSchedule l₂ :=
  List.countP_append ..

@[simp] lemma countInvokes_append (l₁ l₂ : List Action) :
    countInvokes (l₁ ++ l₂) = countInvokes l₁ + countInvokes l₂ :=
  List.countP_append ..

@[simp] lemma countSchedule_nil : countSchedule [] = 0 := rfl

@[simp] lemma countInvokes_nil : countInvokes [] = 0 := rfl

@[simp] lemma countSchedule_cons (a : Action) (l : List Action) :
    countSchedule (a :: l) = countSchedule l + if isSchedule a then 1 else 0 :=
  List.countP_cons ..

@[simp] lemma countInvokes_cons (a : Action) (l : List Action) :
    countInvokes (a :: l) = countInvokes l + if isInvoke a then 1 else 0 :=
  List.countP_cons ..

/-- The inductive invariant of the manager's state machine: relations between
the cursor, the in-flight handshaker, the latch, the posted terminal result,
and the action trace that hold at every mutex boundary. -/
structure Inv (st : MState) : Prop where
  indexLe : st.index ≤ st.handshakers.length
  inFlightIdx : ∀ i, st.inFlight = some i → i + 1 = st.index
  doneShut : st.doneScheduled.isSome = true → st.is_shutdown = true
  doneNoFlight : st.doneScheduled.isSome = true → st.inFlight = none
  flightOrDone : st.inFlight = none → st.doneScheduled.isSome = true
  progressFlight : st.is_shutdown = false → 0 < st.index →
      st.inFlight = some (st.index - 1)
  countSched : countSchedule st.actions = if st.doneScheduled.isSome then 1 else 0
  doneShape : ∀ r, st.doneScheduled = some r →
      ∃ l, st.actions = l ++ [Action.commitTrace, Action.cancelTimer, Action.schedule r]
  countInv : countInvokes st.actions = st.index
  okDone : st.doneScheduled = some HsResult.okArgs → st.endpoint = true
  viaDone : st.viaShutdownOfOk = true → st.doneScheduled.isSome = true
  viaEndpoint : st.viaShutdownOfOk = true → st.endpoint = false
  viaResult : st.viaShutdownOfOk = true →
      st.doneScheduled = some (HsResult.failed (AbslStatus.err "handshaker shutdown"))

/-- Entering `CallNextHandshakerLocked` from a state with no in-flight handshaker
and no terminal yet (this is every call site: the initial call in `DoHandshake`,
and a completion that has just cleared the in-flight handshaker) re-establishes
the invariant. -/
lemma inv_callNext (st : MState) (error : AbslStatus)
    (hidx : st.index ≤ st.handshakers.length)
    (hfl : st.inFlight = none)
    (hdone : st.doneScheduled = none)
    (hcount : countSchedule st.actions = 0)
    (hinv : countInvokes st.actions = st.index)
    (hok : error.isOk = true → st.endpoint = true)
    (hvia : st.viaShutdownOfOk = false) :
    Inv (CallNextHandshakerLocked st error) := by
  rw [CallNextHandshakerLocked]
  by_cases hc : (!error.isOk || st.is_shutdown || st.exit_early
      || st.index == st.handshakers.length) = true
  · rw [if_pos hc]
    refine ⟨hidx, ?_, fun _ => rfl, fun _ => hfl, fun _ => rfl, ?_, ?_, ?_, ?_, ?_,
      fun _ => rfl, ?_, ?_⟩
    · intro i hi; rw [hfl] at hi; cases hi
    · intro h; cases h
    · simp [hcount]
    · intro r hr
      refine ⟨st.actions, ?_⟩
      simp only [Option.some.injEq] at hr
      rw [hr]
    · simpa using hinv
    · intro hr
      simp only [Option.some.injEq] at hr
      by_cases hsh : (error.isOk && st.is_shutdown) = true
      · exfalso
        rw [terminalResult, terminalStatus, if_pos hsh] at hr
        simp [AbslStatus.isOk] at hr
      · rw [if_neg hsh]
        rw [terminalResult, terminalStatus, if_neg hsh] at hr
        by_cases he : error.isOk = true
        · exact hok he
        · simp only [Bool.not_eq_true] at he
          rw [he] at hr; simp at hr
    · intro hvia'
      rw [if_pos hvia']
    · intro hvia'
      show some (terminalResult st error) = _
      rw [terminalResult_shutdownOfOk st error hvia']
  · rw [if_neg hc]
    simp only [Bool.or_eq_true, Bool.not_eq_true', not_or, Bool.not_eq_true,
      Bool.not_eq_false, beq_iff_eq] at hc
    obtain ⟨⟨⟨hok', hshut⟩, hee⟩, hne⟩ := hc
    refine ⟨?_, ?_, ?_, ?_, ?_, ?_, ?_, ?_, ?_, ?_, ?_, ?_, ?_⟩
    · exact Nat.succ_le_of_lt (Nat.lt_of_le_of_ne hidx hne)
    · intro i hi
      simp only [Option.some.injEq] at hi
      rw [hi]
    · intro h; rw [hdone] at h; cases h
    · intro h; rw [hdone] at h; cases h
    · intro h; cases h
    · intro _ _; rfl
    · simp [hcount, hdone]
    · intro r hr; rw [hdone] at hr; cases hr
    · simp [hinv]
    · intro hr; rw [hdone] at hr; cases hr
    · intro h; rw [hvia] at h; cases h
    · intro h; rw [hvia] at h; cases h
    · intro h; rw [hvia] at h; cases h

/-- `ShutdownLocked` preserves the invariant. -/
lemma inv_shutdownStep (st : MState) (e : AbslStatus) (h : Inv st) :
    Inv (ShutdownLocked st e) := by
  rw [ShutdownLocked]
  by_cases hs : st.is_shutdown = true
  · rw [if_pos hs]; exact h
  · rw [if_neg hs]
    simp only [Bool.not_eq_true] at hs
    have hdone : st.doneScheduled = none := by
      cases hd : st.doneScheduled with
      | none => rfl
      | some r => exact absurd (h.doneShut (by rw [hd]; rfl)) (by rw [hs]; simp)
    have hvia : st.viaShutdownOfOk = false := by
      cases hv : st.viaShutdownOfOk with
      | false => rfl
      | true =>
        have := h.viaDone hv
        rw [hdone] at this; cases this
    refine ⟨h.indexLe, h.inFlightIdx, fun _ => rfl, ?_, ?_, ?_, ?_, ?_, ?_, ?_, ?_, ?_, ?_⟩
    · intro hd; rw [hdone] at hd; cases hd
    · intro hfl
      have := h.flightOrDone hfl
      rw [hdone] at this; cases this
    · intro hcontra; cases hcontra
    · by_cases hi : 0 < st.index
      · simp [hi, h.countSched, hdone]
      · simp [hi, h.countSched, hdone]
    · intro r hr; rw [hdone] at hr; cases hr
    · by_cases hi : 0 < st.index
      · simp [hi, h.countInv]
      · simp [hi, h.countInv]
    · intro hr; rw [hdone] at hr; cases hr
    · intro hv; rw [hvia] at hv; cases hv
    · intro hv; rw [hvia] at hv; cases hv
    · intro hv; rw [hvia] at hv; cases hv

/-- A single valid event preserves the invariant. -/
lemma inv_step (st : MState) (e : HsEvent) (h : Inv st) (hv : evValid st e = true) :
    Inv (step st e) := by
  cases e with
  | complete s ep ee =>
    simp only [evValid, Bool.and_eq_true, Bool.or_eq_true, Bool.not_eq_true'] at hv
    obtain ⟨hflsome, hep⟩ := hv
    have hfl : st.inFlight.isSome = true := hflsome
    have hdone : st.doneScheduled = none := by
      cases hd : st.doneScheduled with
      | none => rfl
      | some r =>
        have := h.doneNoFlight (by rw [hd]; rfl)
        rw [this] at hfl; cases hfl
    have hvia : st.viaShutdownOfOk = false := by
      cases hvv : st.viaShutdownOfOk with
      | false => rfl
      | true =>
        have := h.viaDone hvv
        rw [hdone] at this; cases this
    refine inv_callNext _ s h.indexLe rfl hdone ?_ ?_ ?_ hvia
    · rw [h.countSched, hdone]; rfl
    · exact h.countInv
    · intro hsok
      show ep = true
      cases hep with
      | inl h1 => rw [hsok] at h1; cases h1
      | inr h2 => exact h2
  | callShutdown e => exact inv_shutdownStep st e h
  | timerFire =>
    refine inv_shutdownStep _ _ ?_
    exact ⟨h.indexLe, h.inFlightIdx, h.doneShut, h.doneNoFlight, h.flightOrDone,
      h.progressFlight, h.countSched, h.doneShape, h.countInv, h.okDone,
      h.viaDone, h.viaEndpoint, h.viaResult⟩

/-- The invariant holds right after `DoHandshake` (for any prior-shutdown bit). -/
lemma inv_init (hs : List Nat) (pre : Bool) :
    Inv (DoHandshakeStart (initState hs pre)) := by
  refine inv_callNext _ _ (Nat.zero_le _) rfl rfl rfl rfl ?_ rfl
  intro _; rfl

/-- The invariant holds after any valid interleaving from an invariant state. -/
lemma inv_foldl (evs : List HsEvent) (st : MState) (h : Inv st)
    (hv : validFrom st evs = true) : Inv (evs.foldl step st) := by
  induction evs generalizing st with
  | nil => exact h
  | cons e es ih =>
    simp only [validFrom, Bool.and_eq_true] at hv
    exact ih (step st e) (inv_step st e h hv.1) hv.2

/-- The invariant holds after any valid run. -/
lemma inv_run (hs : List Nat) (pre : Bool) (evs : List HsEvent)
    (hv : ValidRun hs pre evs = true) : Inv (run hs pre evs) :=
  inv_foldl evs _ (inv_init hs pre) hv

lemma callNext_handshakers (st : MState) (error : AbslStatus) :
    (CallNextHandshakerLocked st error).handshakers = st.handshakers := by
  rw [CallNextHandshakerLocked]; split <;> rfl

lemma shutdownStep_handshakers (st : MState) (e : AbslStatus) :
    (ShutdownLocked st e).handshakers = st.handshakers := by
  rw [ShutdownLocked]; split <;> rfl

lemma step_handshakers (st : MState) (e : HsEvent) :
    (step st e).handshakers = st.handshakers := by
  cases e with
  | complete s ep ee => exact callNext_handshakers _ _
  | callShutdown e => exact shutdownStep_handshakers _ _
  | timerFire => exact shutdownStep_handshakers _ _

lemma foldl_handshakers (evs : List HsEvent) (st : MState) :
    (evs.foldl step st).handshakers = st.handshakers := by
  induction evs generalizing st with
  | nil => rfl
  | cons e es ih => rw [List.foldl_cons, ih, step_handshakers]

lemma callNext_index_mono (st : MState) (error : AbslStatus) :
    st.index ≤ (CallNextHandshakerLocked st error).index := by
  rw [CallNextHandshakerLocked]
  split
  · exact Nat.le_refl _
  · exact Nat.le_succ _

lemma shutdownStep_index (st : MState) (e : AbslStatus) :
    (ShutdownLocked st e).index = st.index := by
  rw [ShutdownLocked]; split <;> rfl

lemma step_index_mono (st : MState) (e : HsEvent) :
    st.index ≤ (step st e).index := by
  cases e with
  | complete s ep ee =>
    exact callNext_index_mono { st with inFlight := none, endpoint := ep, exit_early := ee } s
  | callShutdown e => exact Nat.le_of_eq (shutdownStep_index st e).symm
  | timerFire =>
    exact Nat.le_of_eq (shutdownStep_index { st with timerFired := true } _).symm

lemma foldl_index_mono (evs : List HsEvent) (st : MState) :
    st.index ≤ (evs.foldl step st).index := by
  induction evs generalizing st with
  | nil => exact Nat.le_refl _
  | cons e es ih =>
    exact Nat.le_trans (step_index_mono st e) (ih (step st e))

/-- Once `is_shutdown_` is latched, every further transition keeps it latched and
invokes no handshaker. -/
lemma shutdown_frozen_step (st : MState) (e : HsEvent) (h : st.is_shutdown = true) :
    (step st e).is_shutdown = true ∧
    countInvokes (step st e).actions = countInvokes st.actions := by
  cases e with
  | complete s ep ee =>
    rw [step, CallNextHandshakerLocked, if_pos (by simp [h])]
    exact ⟨rfl, by simp⟩
  | callShutdown e =>
    rw [step, ShutdownLocked, if_pos h]
    exact ⟨h, rfl⟩
  | timerFire =>
    rw [step, ShutdownLocked, if_pos h]
    exact ⟨h, rfl⟩

lemma shutdown_frozen_foldl (evs : List HsEvent) (st : MState)
    (h : st.is_shutdown = true) :
    (evs.foldl step st).is_shutdown = true ∧
    countInvokes (evs.foldl step st).actions = countInvokes st.actions := by
  induction evs generalizing st with
  | nil => exact ⟨h, rfl⟩
  | cons e es ih =>
    obtain ⟨h1, h2⟩ := shutdown_frozen_step st e h
    obtain ⟨h3, h4⟩ := ih (step st e) h1
    exact ⟨h3, h4.trans h2⟩

/-- After `on_handshake_done` has been posted, no valid transition changes either
the action trace or the posted result. -/
lemma done_frozen_step (st : MState) (e : HsEvent) (h : Inv st)
    (hd : st.doneScheduled.isSome = true) (hv : evValid st e = true) :
    (step st e).actions = st.actions ∧
    (step st e).doneScheduled = st.doneScheduled := by
  cases e with
  | complete s ep ee =>
    exfalso
    simp only [evValid, Bool.and_eq_true] at hv
    have := h.doneNoFlight hd
    rw [this] at hv
    simp at hv
  | callShutdown e =>
    rw [step, ShutdownLocked, if_pos (h.doneShut hd)]
    exact ⟨rfl, rfl⟩
  | timerFire =>
    rw [step, ShutdownLocked, if_pos (h.doneShut hd)]
    exact ⟨rfl, rfl⟩

lemma done_frozen_foldl (evs : List HsEvent) (st : MState) (h : Inv st)
    (hd : st.doneScheduled.isSome = true) (hv : validFrom st evs = true) :
    (evs.foldl step st).actions = st.actions ∧
    (evs.foldl step st).doneScheduled = st.doneScheduled := by
  induction evs generalizing st with
  | nil => exact ⟨rfl, rfl⟩
  | cons e es ih =>
    simp only [validFrom, Bool.and_eq_true] at hv
    obtain ⟨h1, h2⟩ := done_frozen_step st e h hd hv.1
    obtain ⟨h3, h4⟩ := ih (step st e) (inv_step st e h hv.1) (by rw [h2]; exact hd) hv.2
    exact ⟨h3.trans h1, h4.trans h2⟩

lemma validFrom_append (st : MState) (l₁ l₂ : List HsEvent) :
    validFrom st (l₁ ++ l₂) = (validFrom st l₁ && validFrom (l₁.foldl step st) l₂) := by
  induction l₁ generalizing st with
  | nil => simp [validFrom]
  | cons e es ih =>
    simp only [List.cons_append, validFrom, List.foldl_cons, List.append_eq, ih, Bool.and_assoc]

lemma run_append (hs : List Nat) (pre : Bool) (l₁ l₂ : List HsEvent) :
    run hs pre (l₁ ++ l₂) = l₂.foldl step (run hs pre l₁) :=
  List.foldl_append ..

lemma run_handshakers (hs : List Nat) (pre : Bool) (evs : List HsEvent) :
    (run hs pre evs).handshakers = hs := by
  rw [run, foldl_handshakers, DoHandshakeStart, callNext_handshakers]
  rfl

/-- Claim C2: `CallNextHandshakerLocked` enters the terminal branch — posting the
terminal result while leaving the cursor untouched and invoking no handshaker —
exactly when the incoming status is non-ok, or `is_shutdown_` holds, or
`args_.exit_early` holds, or the cursor equals the number of registered
handshakers; in every other case it reads `handshakers_[index_]`, increments
`index_`, and invokes that handshaker's `DoHandshake`. -/
theorem advanceLocked_branch_iff (st : MState) (error : AbslStatus) :
    ((!error.isOk || st.is_shutdown || st.exit_early
        || st.index == st.handshakers.length) = false →
      CallNextHandshakerLocked st error =
        { st with
          index := st.index + 1,
          inFlight := some st.index,
          actions := st.actions ++
            [Action.invoke (st.handshakers.getD st.index 0) st.index] }) ∧
    ((!error.isOk || st.is_shutdown || st.exit_early
        || st.index == st.handshakers.length) = true →
      (CallNextHandshakerLocked st error).doneScheduled
          = some (terminalResult st error) ∧
      (CallNextHandshakerLocked st error).index = st.index ∧
      countInvokes (CallNextHandshakerLocked st error).actions
          = countInvokes st.actions) := by
  constructor
  · intro hc
    rw [CallNextHandshakerLocked, if_neg (by rw [hc]; simp)]
  · intro hc
    rw [CallNextHandshakerLocked, if_pos hc]
    exact ⟨rfl, rfl, by simp⟩

/-- Witness for C2 at concrete inputs: a one-handshaker manager with an ok status
advances; a zero-handshaker manager hits the terminal branch with its cursor
unchanged. -/
theorem advanceLocked_branch_iff_witness :
    CallNextHandshakerLocked (initState [4] false) AbslStatus.okStatus =
      { initState [4] false with
        index := 1, inFlight := some 0, actions := [Action.invoke 4 0] } ∧
    (CallNextHandshakerLocked (initState [] false) AbslStatus.okStatus).index = 0 := by
  constructor
  · have h := (advanceLocked_branch_iff (initState [4] false) AbslStatus.okStatus).1
      (by decide)
    rw [h]; rfl
  · exact ((advanceLocked_branch_iff (initState [] false) AbslStatus.okStatus).2
      (by decide)).2.1

/-- Claim C3: in the terminal branch the synthetic "handshaker shutdown" error is
produced only when the incoming status is ok while `is_shutdown_` holds; a
handshaker's non-ok status arriving together with `is_shutdown_` is surfaced to
`on_handshake_done` unchanged, not overwritten by the synthetic error. -/
theorem terminal_error_not_overwritten (st : MState) (error : AbslStatus) :
    (error.isOk = false →
      (CallNextHandshakerLocked st error).doneScheduled
        = some (HsResult.failed error)) ∧
    (error.isOk = true → st.is_shutdown = true →
      (CallNextHandshakerLocked st error).doneScheduled
          = some (HsResult.failed (AbslStatus.err "handshaker shutdown")) ∧
      (CallNextHandshakerLocked st error).endpoint = false) := by
  constructor
  · intro he
    rw [CallNextHandshakerLocked, if_pos (by rw [he]; simp)]
    show some (terminalResult st error) = _
    rw [terminalResult_of_err st error he]
  · intro he hsd
    rw [CallNextHandshakerLocked, if_pos (by rw [hsd]; simp)]
    constructor
    · show some (terminalResult st error) = _
      rw [terminalResult_shutdownOfOk st error (by rw [he, hsd]; rfl)]
    · show (if (error.isOk && st.is_shutdown) = true then false else st.endpoint) = false
      rw [if_pos (by rw [he, hsd]; rfl)]

/-- Witness for C3 at concrete inputs: a non-ok completion under shutdown keeps
its own error; an ok completion under shutdown becomes "handshaker shutdown" and
drops the endpoint. -/
theorem terminal_error_not_overwritten_witness :
    (CallNextHandshakerLocked
        { initState [] false with is_shutdown := true, endpoint := true }
        (AbslStatus.err "bad preface")).doneScheduled
      = some (HsResult.failed (AbslStatus.err "bad preface")) ∧
    (CallNextHandshakerLocked
        { initState [] false with is_shutdown := true, endpoint := true }
        AbslStatus.okStatus).doneScheduled
      = some (HsResult.failed (AbslStatus.err "handshaker shutdown")) ∧
    (CallNextHandshakerLocked
        { initState [] false with is_shutdown := true, endpoint := true }
        AbslStatus.okStatus).endpoint = false := by
  refine ⟨?_, ?_, ?_⟩
  · exact (terminal_error_not_overwritten
      { initState [] false with is_shutdown := true, endpoint := true }
      (AbslStatus.err "bad preface")).1 rfl
  · exact ((terminal_error_not_overwritten
      { initState [] false with is_shutdown := true, endpoint := true }
      AbslStatus.okStatus).2 rfl rfl).1
  · exact ((terminal_error_not_overwritten
      { initState [] false with is_shutdown := true, endpoint := true }
      AbslStatus.okStatus).2 rfl rfl).2

/-- Claim C7: `Shutdown` is idempotent — when `is_shutdown_` already holds it is a
no-op leaving the whole state unchanged; otherwise it latches `is_shutdown_`,
forwards `Shutdown(error)` to `handshakers_[index_ - 1]` exactly when
`index_ > 0`, and never itself posts `on_handshake_done` (the posted-result field
and the count of posts are untouched, as is every other manager field). -/
theorem shutdown_idempotent_no_on_done (st : MState) (e : AbslStatus) :
    (st.is_shutdown = true → ShutdownLocked st e = st) ∧
    (st.is_shutdown = false →
      (ShutdownLocked st e).is_shutdown = true ∧
      (0 < st.index →
        (ShutdownLocked st e).actions
          = st.actions ++ [Action.shutdownHs (st.index - 1) e]) ∧
      (st.index = 0 → (ShutdownLocked st e).actions = st.actions) ∧
      (ShutdownLocked st e).doneScheduled = st.doneScheduled ∧
      countSchedule (ShutdownLocked st e).actions = countSchedule st.actions ∧
      (ShutdownLocked st e).index = st.index ∧
      (ShutdownLocked st e).inFlight = st.inFlight ∧
      (ShutdownLocked st e).endpoint = st.endpoint ∧
      (ShutdownLocked st e).handshakers = st.handshakers) := by
  constructor
  · intro h
    rw [ShutdownLocked, if_pos h]
  · intro h
    rw [ShutdownLocked, if_neg (by rw [h]; simp)]
    refine ⟨rfl, ?_, ?_, rfl, ?_, rfl, rfl, rfl, rfl⟩
    · intro hi
      show st.actions ++ (if 0 < st.index then _ else _) = _
      rw [if_pos hi]
    · intro hi
      show st.actions ++ (if 0 < st.index then _ else _) = _
      rw [if_neg (by rw [hi]; simp), List.append_nil]
    · show countSchedule (st.actions ++ _) = _
      split <;> simp

/-- Witness for C7 at concrete inputs: a second `Shutdown` is a no-op, and a first
`Shutdown` with one handshaker in flight forwards to index 0 without posting
`on_handshake_done`. -/
theorem shutdown_idempotent_no_on_done_witness :
    ShutdownLocked { initState [4] false with is_shutdown := true }
        (AbslStatus.err "again")
      = { initState [4] false with is_shutdown := true } ∧
    (ShutdownLocked
        { initState [4] false with index := 1, inFlight := some 0 }
        (AbslStatus.err "cancel")).actions
      = [Action.shutdownHs 0 (AbslStatus.err "cancel")] ∧
    (ShutdownLocked
        { initState [4] false with index := 1, inFlight := some 0 }
        (AbslStatus.err "cancel")).doneScheduled = none := by
  refine ⟨?_, ?_, ?_⟩
  · exact (shutdown_idempotent_no_on_done _ _).1 rfl
  · have h := (((shutdown_idempotent_no_on_done
      { initState [4] false with index := 1, inFlight := some 0 }
      (AbslStatus.err "cancel")).2 rfl).2.1) (by decide)
    rw [h]; rfl
  · exact (((shutdown_idempotent_no_on_done
      { initState [4] false with index := 1, inFlight := some 0 }
      (AbslStatus.err "cancel")).2 rfl).2.2.2.1)

end GrpcHandshake

namespace GrpcHandshake

/-- Claim C1: across every valid interleaving of handshaker completions,
`Shutdown` calls and deadline-timer fires, `on_handshake_done` is posted at most
once, exactly once whenever no handshaker is left in flight, and every post is
immediately preceded in the manager's call sequence by the cancellation of the
deadline timer. -/
theorem on_done_exactly_once (hs : List Nat) (pre : Bool) (evs : List HsEvent)
    (hv : ValidRun hs pre evs = true) :
    countSchedule (run hs pre evs).actions ≤ 1 ∧
    ((run hs pre evs).inFlight = none →
      countSchedule (run hs pre evs).actions = 1) ∧
    (∀ r, (run hs pre evs).doneScheduled = some r →
      ∃ l, (run hs pre evs).actions
        = l ++ [Action.commitTrace, Action.cancelTimer, Action.schedule r]) := by
  have h := inv_run hs pre evs hv
  refine ⟨?_, ?_, h.doneShape⟩
  · rw [h.countSched]
    split
    · exact Nat.le_refl 1
    · exact Nat.zero_le 1
  · intro hfl
    rw [h.countSched, if_pos (h.flightOrDone hfl)]

/-- Witness for C1 on a concrete run: one handshaker completing ok yields exactly
one post, preceded by the timer cancellation. -/
theorem on_done_exactly_once_witness :
    countSchedule
      (run [3] false [HsEvent.complete AbslStatus.okStatus true false]).actions = 1 :=
  (on_done_exactly_once [3] false
    [HsEvent.complete AbslStatus.okStatus true false] (by decide)).2.1 (by decide)

/-- Claim C5: on an ok terminal the endpoint is still owned (non-null) when the
args pointer is handed to `on_handshake_done`; on a terminal reached through the
shutdown-of-ok path the endpoint has been released by the time the (synthetic
"handshaker shutdown") result is posted. -/
theorem endpoint_ownership (hs : List Nat) (pre : Bool) (evs : List HsEvent)
    (hv : ValidRun hs pre evs = true) :
    ((run hs pre evs).doneScheduled = some HsResult.okArgs →
      (run hs pre evs).endpoint = true) ∧
    ((run hs pre evs).viaShutdownOfOk = true →
      (run hs pre evs).endpoint = false ∧
      (run hs pre evs).doneScheduled
        = some (HsResult.failed (AbslStatus.err "handshaker shutdown"))) := by
  have h := inv_run hs pre evs hv
  exact ⟨h.okDone, fun hvv => ⟨h.viaEndpoint hvv, h.viaResult hvv⟩⟩

/-- Witness for C5 on concrete runs: the two-handshaker happy path ends with a
non-null endpoint, and a shutdown racing an ok completion ends with the endpoint
released. -/
theorem endpoint_ownership_witness :
    (run [1, 2] false
        [HsEvent.complete AbslStatus.okStatus true false,
         HsEvent.complete AbslStatus.okStatus true false]).endpoint = true ∧
    (run [1, 2] false
        [HsEvent.callShutdown (AbslStatus.err "cancel"),
         HsEvent.complete AbslStatus.okStatus true false]).endpoint = false := by
  constructor
  · exact (endpoint_ownership [1, 2] false
      [HsEvent.complete AbslStatus.okStatus true false,
       HsEvent.complete AbslStatus.okStatus true false] (by decide)).1 (by decide)
  · exact ((endpoint_ownership [1, 2] false
      [HsEvent.callShutdown (AbslStatus.err "cancel"),
       HsEvent.complete AbslStatus.okStatus true false] (by decide)).2 (by decide)).1

/-- Claim C8: the cursor starts at 0, never regresses across any extension of a
valid interleaving, never exceeds the number of registered handshakers, and
equals the number of handshaker invocations performed (so it advances by exactly
1 per invocation). -/
theorem cursor_monotone (hs : List Nat) (pre : Bool) (evs1 evs2 : List HsEvent)
    (hv : ValidRun hs pre (evs1 ++ evs2) = true) :
    (run hs pre evs1).index ≤ (run hs pre (evs1 ++ evs2)).index ∧
    (run hs pre (evs1 ++ evs2)).index ≤ hs.length ∧
    countInvokes (run hs pre (evs1 ++ evs2)).actions
      = (run hs pre (evs1 ++ evs2)).index := by
  have h := inv_run hs pre (evs1 ++ evs2) hv
  refine ⟨?_, ?_, h.countInv⟩
  · rw [run_append]
    exact foldl_index_mono evs2 (run hs pre evs1)
  · have := h.indexLe
    rwa [run_handshakers] at this

/-- Witness for C8 on a concrete run split: after the first of two ok
completions the cursor is below its final value, which is within bounds. -/
theorem cursor_monotone_witness :
    (run [1, 2] false [HsEvent.complete AbslStatus.okStatus true false]).index
      ≤ (run [1, 2] false
          ([HsEvent.complete AbslStatus.okStatus true false]
            ++ [HsEvent.complete AbslStatus.okStatus true false])).index ∧
    (run [1, 2] false
        ([HsEvent.complete AbslStatus.okStatus true false]
          ++ [HsEvent.complete AbslStatus.okStatus true false])).index
      ≤ [1, 2].length :=
  let h := cursor_monotone [1, 2] false
    [HsEvent.complete AbslStatus.okStatus true false]
    [HsEvent.complete AbslStatus.okStatus true false] (by decide)
  ⟨h.1, h.2.1⟩

/-- Claim C6: once `is_shutdown_` holds, no further handshaker is ever invoked
along any valid continuation; once `on_handshake_done` has been posted, the
manager makes no further calls at all (neither `DoHandshake` nor `Shutdown`
reaches any handshaker); and a `Shutdown` arriving before the latch forwards
exactly to `handshakers_[index_ - 1]` when `index_ > 0` — which is precisely the
in-flight handshaker — and to nobody when `index_ = 0`. -/
theorem no_post_terminal_invocation (hs : List Nat) (pre : Bool)
    (evs1 evs2 : List HsEvent) (e : AbslStatus)
    (hv : ValidRun hs pre (evs1 ++ evs2) = true) :
    ((run hs pre evs1).is_shutdown = true →
      countInvokes (run hs pre (evs1 ++ evs2)).actions
        = countInvokes (run hs pre evs1).actions) ∧
    ((run hs pre evs1).doneScheduled.isSome = true →
      (run hs pre (evs1 ++ evs2)).actions = (run hs pre evs1).actions) ∧
    ((run hs pre evs1).is_shutdown = false → 0 < (run hs pre evs1).index →
      (ShutdownLocked (run hs pre evs1) e).actions
        = (run hs pre evs1).actions
            ++ [Action.shutdownHs ((run hs pre evs1).index - 1) e] ∧
      (run hs pre evs1).inFlight = some ((run hs pre evs1).index - 1)) ∧
    ((run hs pre evs1).index = 0 →
      (ShutdownLocked (run hs pre evs1) e).actions = (run hs pre evs1).actions) := by
  rw [ValidRun, validFrom_append] at hv
  obtain ⟨hv1, hv2⟩ := Bool.and_eq_true _ _ |>.mp hv
  have h1 : Inv (run hs pre evs1) := inv_foldl evs1 _ (inv_init hs pre) hv1
  refine ⟨?_, ?_, ?_, ?_⟩
  · intro hsd
    rw [run_append]
    exact (shutdown_frozen_foldl evs2 (run hs pre evs1) hsd).2
  · intro hd
    rw [run_append]
    exact (done_frozen_foldl evs2 (run hs pre evs1) h1 hd hv2).1
  · intro hsd hi
    refine ⟨?_, h1.progressFlight hsd hi⟩
    rw [ShutdownLocked, if_neg (by rw [hsd]; simp)]
    show (run hs pre evs1).actions ++ (if _ then _ else _) = _
    rw [if_pos hi]
  · intro hi
    rw [ShutdownLocked]
    split
    · rfl
    · show (run hs pre evs1).actions ++ (if _ then _ else _)
        = (run hs pre evs1).actions
      rw [if_neg (by rw [hi]; simp), List.append_nil]

/-- Witness for C6 on a concrete run: after a shutdown-terminated handshake, a
further timer fire changes nothing, and the pre-latch `Shutdown` forwarded to the
in-flight handshaker at index 0. -/
theorem no_post_terminal_invocation_witness :
    countInvokes
      (run [9] false
        ([HsEvent.callShutdown (AbslStatus.err "cancel"),
          HsEvent.complete AbslStatus.okStatus true false]
          ++ [HsEvent.timerFire])).actions
      = countInvokes
          (run [9] false
            [HsEvent.callShutdown (AbslStatus.err "cancel"),
             HsEvent.complete AbslStatus.okStatus true false]).actions ∧
    (run [9] false
        ([HsEvent.callShutdown (AbslStatus.err "cancel"),
          HsEvent.complete AbslStatus.okStatus true false]
          ++ [HsEvent.timerFire])).actions
      = (run [9] false
          [HsEvent.callShutdown (AbslStatus.err "cancel"),
           HsEvent.complete AbslStatus.okStatus true false]).actions :=
  let h := no_post_terminal_invocation [9] false
    [HsEvent.callShutdown (AbslStatus.err "cancel"),
     HsEvent.complete AbslStatus.okStatus true false]
    [HsEvent.timerFire] (AbslStatus.err "x") (by decide)
  ⟨h.1 (by decide), h.2.1 (by decide)⟩

end GrpcHandshake

namespace GrpcHandshake

/-- Claim C4 (refuting instance): `args_.trace_node.Commit()` sits outside the
`if (!error.ok())` guard in the terminal branch of `CallNextHandshakerLocked`, so
it runs on every terminal.  Concretely: one handshaker completes ok, the posted
terminal result is the ok args pointer, and yet the trace node has been
committed — contradicting "Commit is called iff the terminal status is non-ok"
(and the source's own comments, which say the node is committed only on error). -/
theorem trace_committed_on_ok_terminal :
    ValidRun [7] false [HsEvent.complete AbslStatus.okStatus true false] = true ∧
    (run [7] false [HsEvent.complete AbslStatus.okStatus true false]).doneScheduled
      = some HsResult.okArgs ∧
    (run [7] false [HsEvent.complete AbslStatus.okStatus true false]).traceCommitted
      = true := by
  refine ⟨by decide, by decide, by decide⟩

/-- Claim C9 is false as stated: with zero registered handshakers a full
`DoHandshake` runs to completion (the ok result is posted) while leaving
`index_ == 0`, so the `CHECK_EQ(index_, 0u)` precondition of a second
`DoHandshake` still passes and the second call proceeds undetected; likewise
`Add` carries no assertion at all and silently appends after completion. -/
theorem second_doHandshake_unchecked :
    ValidRun [] false [] = true ∧
    (run [] false []).doneScheduled = some HsResult.okArgs ∧
    DoHandshakeCheck (run [] false []) = true ∧
    Add (run [] false []) 5 = { run [] false [] with handshakers := [5] } := by
  refine ⟨by decide, by decide, by decide, by decide⟩

/-- Claim C9 as amended: the `CHECK_EQ(index_, 0u)` assertion does detect a
second `DoHandshake` whenever the first call actually started a handshaker — in
particular whenever the handshaker list is non-empty and no shutdown preceded
the start — because the cursor is then forever positive. -/
theorem doHandshake_twice_detected_when_started (hs : List Nat)
    (evs : List HsEvent) (hne : hs ≠ []) (_hv : ValidRun hs false evs = true) :
    DoHandshakeCheck (run hs false evs) = false := by
  have hlen : hs.length ≠ 0 := fun h => hne (List.length_eq_zero.mp h)
  have h1 : (DoHandshakeStart (initState hs false)).index = 1 := by
    rw [DoHandshakeStart, CallNextHandshakerLocked, if_neg ?_]
    · rfl
    · intro hcon
      simp only [initState, AbslStatus.isOk_okStatus, Bool.not_true, Bool.false_or,
        Bool.or_eq_true, beq_iff_eq] at hcon
      exact hlen hcon.symm
  have h2 : 1 ≤ (run hs false evs).index := by
    rw [run, ← h1]
    exact foldl_index_mono evs _
  rw [DoHandshakeCheck]
  simp only [beq_eq_false_iff_ne, ne_eq]
  omega

/-- Witness for the amended C9: with one handshaker started and completed, the
second call's checked precondition fails. -/
theorem doHandshake_twice_detected_when_started_witness :
    DoHandshakeCheck
      (run [1] false [HsEvent.complete AbslStatus.okStatus true false]) = false :=
  doHandshake_twice_detected_when_started [1]
    [HsEvent.complete AbslStatus.okStatus true false] (by decide) (by decide)

/-- Steps performed inside the task that `InvokeOnHandshakeDone` posts to the
event engine, in order. -/
inductive CbEvent where
  /-- `ExecCtx exec_ctx;` comes into scope. -/
  | execCtxBegin
  /-- `on_handshake_done(std::move(status));`. -/
  | invokeCb (s : AbslStatus)
  /-- `on_handshake_done = nullptr;`, destroying the callback object. -/
  | destroyCb
  /-- the `ExecCtx` goes out of scope as the task returns. -/
  | execCtxEnd
deriving DecidableEq, Repr

/-- Calls `Handshaker::InvokeOnHandshakeDone` makes on the caller's stack: either
posting a task via `event_engine->Run`, or invoking the continuation inline
(which, per the theorem below, it never does). -/
inductive EngineCall where
  | runPost (task : List CbEvent)
  | inlineInvoke (s : AbslStatus)
deriving DecidableEq, Repr

/-- Is this task step the invocation of the continuation? -/
def isInvokeCb : CbEvent → Bool
  | .invokeCb _ => true
  | _ => false

/-- `Handshaker::InvokeOnHandshakeDone(args, on_handshake_done, status)`: its only
caller-stack effect is `args->event_engine->Run(lambda)`, where the lambda
constructs an `ExecCtx`, invokes `on_handshake_done(status)` with the captured
status, and sets the callback to `nullptr` (destroying it) before the `ExecCtx`
leaves scope. -/
def InvokeOnHandshakeDone (status : AbslStatus) : List EngineCall :=
  [EngineCall.runPost
    [CbEvent.execCtxBegin, CbEvent.invokeCb status, CbEvent.destroyCb,
     CbEvent.execCtxEnd]]

/-- Claim C10: for every status, `InvokeOnHandshakeDone` never invokes the
continuation on the caller's stack — its sole caller-stack effect is one
`Run`-post — and the posted task invokes the continuation exactly once with that
status, then destroys the callback object, all between the construction of the
`ExecCtx` and its going out of scope at task return. -/
theorem invokeOnHandshakeDone_posts_once (status : AbslStatus) :
    (∃ task, InvokeOnHandshakeDone status = [EngineCall.runPost task] ∧
      task = [CbEvent.execCtxBegin, CbEvent.invokeCb status, CbEvent.destroyCb,
              CbEvent.execCtxEnd] ∧
      task.countP isInvokeCb = 1) ∧
    (∀ s, EngineCall.inlineInvoke s ∉ InvokeOnHandshakeDone status) := by
  refine ⟨⟨_, rfl, rfl, rfl⟩, ?_⟩
  intro s hmem
  rw [InvokeOnHandshakeDone, List.mem_singleton] at hmem
  simp at hmem

end GrpcHandshake
